import Mathlib

/-!
# Axobase — a shallow embedding of the survival / payment / blending core

This file embeds, in Lean 4, the parts of the axobase repository that its
specification's checkable claims are about:

* `src/feral/utils/crypto.ts` — SHA-256 based Merkle identity hashing
  (`generateMerkleRoot`, `generateGeneHash`);
* the `SurvivalManager` survival loop (operating-mode classification and the
  death condition);
* `src/feral/core/survival/X402Survival.ts` — the consecutive-failure
  hibernation rule of `survivalCheck`;
* `src/payment/X402Client.ts` — challenge validation, the price-deviation
  gate, the paid-retry loop of `handlePaymentRequired`, and the settlement
  polling of `pollForSettlement` / `processPendingSettlements`;
* `src/network/X402Client.ts` — the `maxPrice` ceiling of `executePayment`;
* the `MemoryBlender` genetic blending engine (`blend`, `blendTraits`,
  `computeChildGeneHash`, `isRelated`).

JavaScript `number`s are modelled as `ℚ` (the concrete values exercised by
the survival and blending code are exact in binary floating point, and no
claim proved here depends on rounding), `bigint` as `ℤ`, byte strings as
`List Nat` of byte values.  Asynchronous network interaction is modelled by
passing the sequence of collaborator responses as an explicit argument.
-/

namespace Axobase

/-! ## SHA-256 (the `createHash('sha256')` primitive used by crypto.ts)

A byte-level SHA-256 over `List Nat`, each entry a byte.  32-bit words are
`Nat` reduced mod `2^32`. -/

namespace Sha256

/-- Truncate to a 32-bit word. -/
def w32 (x : Nat) : Nat := x % 4294967296

/-- Right rotation of a 32-bit word. -/
def rotr (n x : Nat) : Nat := w32 ((x >>> n) ||| (x <<< (32 - n)))

/-- Bitwise complement of a 32-bit word. -/
def bnot (x : Nat) : Nat := 4294967295 ^^^ x

def ch (x y z : Nat) : Nat := (x &&& y) ^^^ (bnot x &&& z)

def maj (x y z : Nat) : Nat := (x &&& y) ^^^ (x &&& z) ^^^ (y &&& z)

def bsig0 (x : Nat) : Nat := rotr 2 x ^^^ rotr 13 x ^^^ rotr 22 x

def bsig1 (x : Nat) : Nat := rotr 6 x ^^^ rotr 11 x ^^^ rotr 25 x

def ssig0 (x : Nat) : Nat := rotr 7 x ^^^ rotr 18 x ^^^ (x >>> 3)

def ssig1 (x : Nat) : Nat := rotr 17 x ^^^ rotr 19 x ^^^ (x >>> 10)

/-- The eight initial hash values of FIPS 180-4 §5.3.3 (decimal). -/
def H0 : List Nat :=
  [1779033703, 3144134277, 1013904242, 2773480762,
   1359893119, 2600822924, 528734635, 1541459225]

/-- The 64 round constants of FIPS 180-4 §4.2.2 (decimal). -/
def K : List Nat :=
  [1116352408, 1899447441, 3049323471, 3921009573, 961987163, 1508970993,
   2453635748, 2870763221, 3624381080, 310598401, 607225278, 1426881987,
   1925078388, 2162078206, 2614888103, 3248222580, 3835390401, 4022224774,
   264347078, 604807628, 770255983, 1249150122, 1555081692, 1996064986,
   2554220882, 2821834349, 2952996808, 3210313671, 3336571891, 3584528711,
   113926993, 338241895, 666307205, 773529912, 1294757372, 1396182291,
   1695183700, 1986661051, 2177026350, 2456956037, 2730485921, 2820302411,
   3259730800, 3345764771, 3516065817, 3600352804, 4094571909, 275423344,
   430227734, 506948616, 659060556, 883997877, 958139571, 1322822218,
   1537002063, 1747873779, 1955562222, 2024104815, 2227730452, 2361852424,
   2428436474, 2756734187, 3204031479, 3329325298]

/-- Big-endian 8-byte encoding of a (64-bit) length. -/
def be8 (n : Nat) : List Nat :=
  [(n >>> 56) % 256, (n >>> 48) % 256, (n >>> 40) % 256, (n >>> 32) % 256,
   (n >>> 24) % 256, (n >>> 16) % 256, (n >>> 8) % 256, n % 256]

/-- Big-endian 4-byte encoding of a 32-bit word. -/
def be4 (n : Nat) : List Nat :=
  [(n >>> 24) % 256, (n >>> 16) % 256, (n >>> 8) % 256, n % 256]

/-- FIPS 180-4 §5.1.1 padding: `0x80`, zeros, 64-bit big-endian bit length. -/
def pad (msg : List Nat) : List Nat :=
  let len := msg.length
  let zeros := (64 - (len + 9) % 64) % 64
  msg ++ [0x80] ++ List.replicate zeros 0 ++ be8 (8 * len)

/-- Group bytes into big-endian 32-bit words. -/
def toWords : List Nat → List Nat
  | b0 :: b1 :: b2 :: b3 :: rest =>
      (b0 <<< 24 ||| b1 <<< 16 ||| b2 <<< 8 ||| b3) :: toWords rest
  | _ => []

/-- Split a word list into 16-word blocks (`fuel` bounds the recursion; it is
always called with `fuel = ws.length`, which suffices since each step drops
16 ≥ 1 elements). -/
def chunk16 : Nat → List Nat → List (List Nat)
  | 0, _ => []
  | _ + 1, [] => []
  | fuel + 1, w :: rest => ((w :: rest).take 16) :: chunk16 fuel ((w :: rest).drop 16)

/-- Message schedule: extend 16 words to 64. -/
def schedule (ws : List Nat) : List Nat :=
  (List.range 48).foldl
    (fun w i =>
      let g := fun j => w.getD j 0
      w ++ [w32 (g i + ssig0 (g (i + 1)) + g (i + 9) + ssig1 (g (i + 14)))])
    ws

/-- One compression round; the state is the 8-word list `[a,b,c,d,e,f,g,h]`. -/
def round (st : List Nat) (wk : Nat × Nat) : List Nat :=
  match st with
  | [a, b, c, d, e, f, g, h] =>
      let t1 := w32 (h + bsig1 e + ch e f g + wk.2 + wk.1)
      let t2 := w32 (bsig0 a + maj a b c)
      [w32 (t1 + t2), a, b, c, w32 (d + t1), e, f, g]
  | other => other

/-- Compress one 16-word block into the running hash state. -/
def compressBlock (h : List Nat) (block : List Nat) : List Nat :=
  let out := ((schedule block).zip K).foldl round h
  (h.zip out).map fun p => w32 (p.1 + p.2)

/-- SHA-256 digest (32 bytes) of a byte list. -/
def digest (msg : List Nat) : List Nat :=
  let ws := toWords (pad msg)
  let hFinal := (chunk16 ws.length ws).foldl compressBlock H0
  (hFinal.map be4).flatten

end Sha256

/-! ## Byte/hex/UTF-8 plumbing shared by the hashing code -/

/-- UTF-8 encoding of a single character. -/
def utf8Char (c : Char) : List Nat :=
  let n := c.toNat
  if n < 0x80 then [n]
  else if n < 0x800 then [0xC0 + n / 64, 0x80 + n % 64]
  else if n < 0x10000 then
    [0xE0 + n / 4096, 0x80 + (n / 64) % 64, 0x80 + n % 64]
  else
    [0xF0 + n / 262144, 0x80 + (n / 4096) % 64, 0x80 + (n / 64) % 64, 0x80 + n % 64]

/-- UTF-8 bytes of a string (what `createHash(...).update(str)` hashes). -/
def utf8 (s : String) : List Nat := (s.data.map utf8Char).flatten

/-- Lowercase hex digit of a nibble (`Nat.digitChar` maps 0–15 to
`0`–`9`, `a`–`f`). -/
def hexDigit (n : Nat) : Char := Nat.digitChar n

/-- Lowercase hex rendering of a byte list (`.digest('hex')`). -/
def toHex (bs : List Nat) : String :=
  String.mk ((bs.map fun b => [hexDigit (b / 16), hexDigit (b % 16)]).flatten)

/-- `createHash('sha256').update(s).digest('hex')` on a string. -/
def sha256hex (s : String) : String := toHex (Sha256.digest (utf8 s))

-- Known-answer checks of the SHA-256 model (FIPS 180-4 test vectors).
example : sha256hex "" =
    "e3b0c44298fc1c149afbf4c8996fb92427ae41e4649b934ca495991b7852b855" := by decide
example : sha256hex "abc" =
    "ba7816bf8f01cfea414140de5dae2223b00361a396177a9cb410ff61f20015ad" := by decide

/-! ## `src/feral/utils/crypto.ts` — `generateMerkleRoot` / `generateGeneHash` -/

/-- One level of the Merkle `while` loop body: pad an odd level by duplicating
its last element, then hash adjacent pairs (`hashes[i] + hashes[i+1]` is
string concatenation of the two hex digests). -/
def merkleLevel (hs : List String) : List String :=
  let padded := if hs.length % 2 = 1 then hs ++ [hs.getLast?.getD ""] else hs
  merklePairs padded
where
  merklePairs : List String → List String
    | a :: b :: rest => sha256hex (a ++ b) :: merklePairs rest
    | _ => []

/-- The `while (hashes.length > 1)` loop of `generateMerkleRoot`.  `fuel`
bounds the iteration count; it is called with the initial level's length,
which suffices because every level at least halves a two-or-more list. -/
def merkleLoop : Nat → List String → String
  | _, [] => ""
  | 0, h :: _ => h
  | _ + 1, [h] => h
  | fuel + 1, hs => merkleLoop fuel (merkleLevel hs)

/-- `generateMerkleRoot(leaves)` from crypto.ts: empty input hashes the empty
string; otherwise hash each leaf and fold levels until one root remains. -/
def generateMerkleRoot (leaves : List String) : String :=
  if leaves = [] then sha256hex ""
  else
    let hashes := leaves.map sha256hex
    merkleLoop hashes.length hashes

/-- `generateGeneHash(memoryData)` from crypto.ts.  A JS
`Record<string, string>` is modelled as an association list with distinct
keys; `Object.keys(...).sort()` is the sorted key list and `memoryData[key]`
is `lookup`. -/
def generateGeneHash (memoryData : List (String × String)) : String :=
  let sorted := List.insertionSort (· ≤ ·) (memoryData.map Prod.fst)
  let leaves := sorted.map fun key => key ++ ":" ++ ((memoryData.lookup key).getD "")
  generateMerkleRoot leaves

/-! ## `SurvivalManager` — operating modes, thresholds, the survival cycle -/

/-- `OperationMode` from `types/index.ts`. -/
inductive OperationMode
  | NORMAL
  | LOW_POWER
  | EMERGENCY
  | HIBERNATION
deriving DecidableEq, Repr

/-- `BotLifeStatus` from `types/index.ts`. -/
inductive BotLifeStatus
  | UNBORN
  | ALIVE
  | DEAD
  | REINCARNATED
  | HIBERNATING
deriving DecidableEq, Repr

/-- Base USDC thresholds (6 decimals), as `bigint` constants in Survival.ts:
5, 2, 1 and 0.5 USDC. -/
def LOW_POWER_THRESHOLD : ℤ := 5000000
def EMERGENCY_THRESHOLD : ℤ := 2000000
def CRITICAL_THRESHOLD : ℤ := 1000000
def HIBERNATION_THRESHOLD : ℤ := 500000
/-- `MIN_ETH_FOR_GAS` (18 decimals): 0.001 ETH. -/
def MIN_ETH_FOR_GAS : ℤ := 1000000000000000

/-- The wallet balance pair queried each cycle. -/
structure Balances where
  eth : ℤ
  usdc : ℤ
deriving DecidableEq, Repr

/-- `SurvivalManager.determineOperationMode`: gas first, then USDC floors in
hibernation / emergency / low-power order. -/
def determineOperationMode (balances : Balances) : OperationMode :=
  if balances.eth < MIN_ETH_FOR_GAS then .EMERGENCY
  else if balances.usdc < HIBERNATION_THRESHOLD then .HIBERNATION
  else if balances.usdc < EMERGENCY_THRESHOLD then .EMERGENCY
  else if balances.usdc < LOW_POWER_THRESHOLD then .LOW_POWER
  else .NORMAL

/-- `SurvivalManager.determineHealth`. -/
def determineHealth (balances : Balances) : String :=
  if balances.usdc < CRITICAL_THRESHOLD then "dead"
  else if balances.usdc < EMERGENCY_THRESHOLD then "critical"
  else if balances.usdc < LOW_POWER_THRESHOLD then "warning"
  else "healthy"

/-- The mode/life slice of the bot status that `runSurvivalCycle` updates. -/
structure CycleStatus where
  mode : OperationMode
  life : BotLifeStatus
deriving DecidableEq, Repr

/-- The state updates of one `runSurvivalCycle` body: the mode is recomputed
from the balances, and — after the mode-specific actions, unconditionally and
in every mode — the status is set to `DEAD` exactly when
`usdc < HIBERNATION_THRESHOLD && eth < MIN_ETH_FOR_GAS`. -/
def runSurvivalCycleStep (s : CycleStatus) (balances : Balances) : CycleStatus :=
  let mode := determineOperationMode balances
  let life :=
    if balances.usdc < HIBERNATION_THRESHOLD ∧ balances.eth < MIN_ETH_FOR_GAS then
      BotLifeStatus.DEAD
    else s.life
  ⟨mode, life⟩

/-! ## `X402Survival.ts` — the consecutive-failure hibernation rule -/

/-- The `SurvivalState.mode` strings of `X402Survival`. -/
inductive XMode
  | normal
  | emergency
  | hibernation
deriving DecidableEq, Repr

/-- The slice of `X402Survival`'s `SurvivalState` that `survivalCheck`
updates: current mode and the consecutive-failure counter. -/
structure XSurvivalState where
  mode : XMode
  consecutiveFailures : ℕ
deriving DecidableEq, Repr

/-- `config.thresholds` of `X402Survival` (USDC amounts). -/
structure XThresholds where
  criticalBalance : ℚ
  lowBalance : ℚ
deriving DecidableEq

/-- What one `survivalCheck` tick observed: either the whole `try` block
succeeded with the freshly read USDC balance, or some step in it threw. -/
inductive CheckOutcome
  | success (usdcBalance : ℚ)
  | failure
deriving DecidableEq

/-- The state update of one `X402Survival.survivalCheck` tick.  On success the
mode is derived from the balance thresholds and the failure counter is reset;
on failure the counter is incremented and, when it exceeds 5, the mode becomes
`hibernation` (and the loop stops — not modelled further). -/
def survivalCheck (t : XThresholds) (s : XSurvivalState) (o : CheckOutcome) :
    XSurvivalState :=
  match o with
  | .success usdc =>
      let mode :=
        if usdc < t.criticalBalance then XMode.emergency
        else if usdc < t.lowBalance then XMode.emergency
        else XMode.normal
      ⟨mode, 0⟩
  | .failure =>
      let f := s.consecutiveFailures + 1
      ⟨if f > 5 then XMode.hibernation else s.mode, f⟩

/-- `n` consecutive failed `survivalCheck` ticks. -/
def runFailures (t : XThresholds) : ℕ → XSurvivalState → XSurvivalState
  | 0, s => s
  | n + 1, s => runFailures t n (survivalCheck t s .failure)

/-! ## `src/payment/X402Client.ts` and `src/network/X402Client.ts` -/

/-- The decoded `X-PAYMENT-INFO` payment descriptor. -/
structure X402PaymentInfo where
  scheme : String
  networkId : String
  maxAmountRequired : ℚ
  beneficiary : String
  validForSeconds : ℕ
deriving DecidableEq, Repr

/-- `X402Client.parsePaymentRequired` (payment client), after header
decoding: reject any scheme other than `exact`, then reject a network id that
does not match the configured network. -/
def parsePaymentRequired (chainId : ℕ) (info : X402PaymentInfo) :
    Except String X402PaymentInfo :=
  if info.scheme ≠ "exact" then
    .error ("Unsupported payment scheme: " ++ info.scheme)
  else if info.networkId ≠ toString chainId then
    .error ("Network mismatch: expected " ++ toString chainId ++ ", got " ++
      info.networkId)
  else .ok info

/-- The price-manipulation gate of `handlePaymentRequired` (payment client):
`deviation = (amount / historicalAvg - 1) * 100` must not exceed 300. -/
def priceDeviationExceeded (amount avg : ℚ) : Bool :=
  decide (0 < avg) && decide (300 < (amount / avg - 1) * 100)

/-- The `X-PAYMENT-RESPONSE` content of a paid retry, as
`parsePaymentResponse` classifies it. -/
inductive PaidHeader
  | errFunds
  | errInvalid
  | errOther (e : String)
  | okTx (txHash : String)
  | okNoTx
deriving DecidableEq, Repr

/-- One paid response: either it carries an `X-PAYMENT-RESPONSE` header or
not. -/
inductive PaidResponse
  | withHeader (h : PaidHeader)
  | noHeader
deriving DecidableEq, Repr

/-- Result of the `handlePaymentRequired` flow.  `signed` counts the payments
signed; `nonceIdxs` are the wallet nonce-stream positions drawn, in order
(`AgentWallet.signPayment` is not under src/ — modelled from the spec:
each signature embeds a fresh single-use nonce, so successive calls draw
successive stream positions); `outcome`, when `ok`, carries whether settlement
polling was started (a `txHash` was present). -/
structure HandleResult where
  signed : ℕ
  nonceIdxs : List ℕ
  outcome : Except String Bool
deriving Repr

/-- `X402Client.handlePaymentRequired` (payment client), as a function of the
sequence of paid responses the server will return.  Per call: the
price-deviation gate, the balance check, one `signPayment`, the paid retry,
then the `X-PAYMENT-RESPONSE` dispatch — `funds_exceeded` is fatal, `invalid`
recurses into the whole flow on the remaining responses, any other error is
fatal, otherwise the response is returned (settlement polling starts when a
`txHash` is present).  `n` is the index of the next wallet nonce. -/
def handlePaymentRequired (historicalAvg balance amount : ℚ) :
    List PaidResponse → ℕ → HandleResult
  | rs, n =>
    if priceDeviationExceeded amount historicalAvg then
      ⟨n, [], .error "Price exceeds 300 percent of historical average"⟩
    else if balance < amount then
      ⟨n, [], .error "Insufficient balance"⟩
    else
      match rs with
      | [] => ⟨n + 1, [n], .error "response trace exhausted"⟩
      | r :: rest =>
        match r with
        | .withHeader .errFunds =>
            ⟨n + 1, [n], .error "Payment failed: funds exceeded"⟩
        | .withHeader .errInvalid =>
            let res := handlePaymentRequired historicalAvg balance amount rest (n + 1)
            ⟨res.signed, n :: res.nonceIdxs, res.outcome⟩
        | .withHeader (.errOther e) => ⟨n + 1, [n], .error ("Payment error: " ++ e)⟩
        | .withHeader (.okTx _) => ⟨n + 1, [n], .ok true⟩
        | .withHeader .okNoTx => ⟨n + 1, [n], .ok false⟩
        | .noHeader => ⟨n + 1, [n], .ok false⟩

/-- A paid response as `executePayment` (network client) inspects it: an
`x-payment-response` header with an error or a `txHash`, or no header and a
bare HTTP status. -/
inductive NetPaidResponse
  | headerError (e : String)
  | headerOk (txHash : String)
  | plain (status : ℕ)
deriving DecidableEq, Repr

/-- `X402Client.executePayment` (network client): the configured `maxPrice`
ceiling, the micro-USDC balance check, then the paid retry dispatch. -/
def executePayment (maxPrice : ℚ) (info : X402PaymentInfo) (balanceMicro : ℤ)
    (resp : NetPaidResponse) : Except String String :=
  if maxPrice < info.maxAmountRequired then
    .error "Price exceeds maximum"
  else if balanceMicro < ⌈info.maxAmountRequired * 1000000⌉ then
    .error "Insufficient balance"
  else
    match resp with
    | .headerError e => .error ("Payment failed: " ++ e)
    | .headerOk tx => .ok tx
    | .plain s =>
        if s = 200 ∨ s = 201 then .ok "0x0"
        else .error ("Payment request failed: " ++ toString s)

/-! ### Settlement polling (`pollForSettlement`, `processPendingSettlements`) -/

/-- A facilitator status-poll outcome (`pending` also covers network errors —
both fall into the catch that ignores polling errors). -/
inductive SettleStatus
  | confirmed
  | failed
  | pending
deriving DecidableEq, Repr

/-- The evidence-submission loop: `ok a` is whether the `a`-th submission
attempt succeeds; at most `maxRetries = 5` attempts (fuel starts at 5). -/
def submitEvidence (ok : ℕ → Bool) : ℕ → ℕ → Bool
  | 0, _ => false
  | fuel + 1, attempt => if ok attempt then true else submitEvidence ok fuel (attempt + 1)

/-- Whether the evidence got submitted within the 5-attempt budget. -/
def submitted (ok : ℕ → Bool) : Bool := submitEvidence ok 5 0

/-- The confirmation poll loop: `status i` is the `i`-th status response.
Only `confirmed` exits with success.  A `failed` status raises inside the
`try`, is caught by the `catch` that ignores polling errors, and polling
continues — so `failed` takes the same branch as `pending`.  `fuel` is the
number of polls the attempt cap and the timeout clock allow. -/
def pollLoop (status : ℕ → SettleStatus) : ℕ → ℕ → Bool
  | 0, _ => false
  | fuel + 1, i =>
    match status i with
    | .confirmed => true
    | _ => pollLoop status fuel (i + 1)

/-- `X402Client.pollForSettlement`: submit the evidence (on exhausting the
5-attempt budget, cache it in `pendingSettlements` and return unconfirmed);
once submitted, poll for confirmation up to `min maxPollAttempts budget`
polls (`maxPollAttempts = 60`; `budget` is how many polls the `pollTimeoutMs`
clock allows) and return whether `confirmed` was seen — the pending set is
not touched on this path. -/
def pollForSettlement (ok : ℕ → Bool) (status : ℕ → SettleStatus) (budget : ℕ)
    (pending : List String) (tx : String) : Bool × List String :=
  if submitted ok = false then (false, tx :: pending)
  else (pollLoop status (min 60 budget) 0, pending)

/-- `X402Client.processPendingSettlements`: re-poll every cached evidence and
drop exactly those that now succeed (`result tx` is whether the re-poll of
`tx` returns true). -/
def processPendingSettlements (result : String → Bool) (pending : List String) :
    List String :=
  pending.filter fun tx => !result tx

/-! ## `MemoryBlender` (Blend.ts) — Lamarckian blending and mutation -/

def MUTATION_RATE : ℚ := 5 / 100
def MUTATION_MAGNITUDE : ℚ := 2 / 10
def MAX_INBREEDING_DEPTH : ℕ := 3

/-- `PersonalityTraits` from `types/index.ts`: numeric traits in `[0,1]` plus
the categorical `resourceFocus`. -/
structure PersonalityTraits where
  aggression : ℚ
  cooperation : ℚ
  riskTolerance : ℚ
  resourceFocus : String
  communication : ℚ
deriving DecidableEq, Repr

structure KnowledgeEntry where
  id : String
  source : String
  content : String
  timestamp : ℕ
  confidence : ℚ
deriving DecidableEq, Repr

structure SoulData where
  name : String
  origin : String
  purpose : String
  values : List String
  creationTimestamp : ℕ
deriving DecidableEq, Repr

structure ThoughtEntry where
  timestamp : ℕ
  content : String
  context : String
  model : String
deriving DecidableEq, Repr

/-- `TransactionLog` (the TS `type` field is `txType` here — `type` is a Lean
keyword). -/
structure TransactionLog where
  timestamp : ℕ
  txType : String
  amount : ℤ
  recipient : String
  txHash : String
deriving DecidableEq, Repr

structure DailySummary where
  date : String
  arweaveTx : String
  thoughtsCount : ℕ
  balanceSnapshot : ℤ
deriving DecidableEq, Repr

structure MemoryContent where
  thoughts : List ThoughtEntry
  transactions : List TransactionLog
  dailySummaries : List DailySummary
deriving DecidableEq, Repr

structure ArweaveEntry where
  timestamp : ℕ
  arweaveTx : String
  entryType : String
  contentHash : String
deriving DecidableEq, Repr

structure ArweaveManifest where
  version : String
  geneHash : String
  entries : List ArweaveEntry
deriving DecidableEq, Repr

/-- `MemoryData` from `types/index.ts`. -/
structure MemoryData where
  geneHash : String
  generation : ℕ
  birthTime : ℕ
  parents : List String
  soul : SoulData
  memory : MemoryContent
  personalityTraits : PersonalityTraits
  knowledgeBase : List KnowledgeEntry
  survivalDays : ℚ
  arweaveManifest : ArweaveManifest
deriving DecidableEq, Repr

structure MutationRecord where
  trait : String
  parentValue : String
  childValue : String
  magnitude : ℚ
  random : Bool
deriving DecidableEq, Repr

structure BlendResult where
  childMemory : MemoryData
  mutations : List MutationRecord
  parentAContribution : ℚ
  parentBContribution : ℚ
deriving DecidableEq, Repr

/-- The `Math.random()` stream: `f n` is the `n`-th draw (each in `[0,1)` for
a faithful source), `i` the next index. -/
structure Rng where
  f : ℕ → ℚ
  i : ℕ

/-- Draw the next random number. -/
def Rng.next (r : Rng) : ℚ × Rng := (r.f r.i, ⟨r.f, r.i + 1⟩)

/-- Decimal rendering of a rational, used where Blend.ts turns a JS number
into a string (`JSON.stringify` of traits, `toFixed` in mutation records —
the `toFixed(3)` rounding is abstracted to the exact value).  Values with a
finite decimal expansion render as that decimal; others fall back to
`num/den`.  No claim proved in this file depends on this rendering. -/
def ratStr (q : ℚ) : String :=
  match (List.range 31).find? (fun k => (q * 10 ^ k).den == 1) with
  | some 0 => toString q.num
  | some (k + 1) =>
      let n := (q * 10 ^ (k + 1)).num
      let a := n.natAbs
      let ip := a / 10 ^ (k + 1)
      let fp := a % 10 ^ (k + 1)
      let fpStr := toString fp
      let fpPad := String.mk (List.replicate (k + 1 - fpStr.length) '0') ++ fpStr
      (if n < 0 then "-" else "") ++ toString ip ++ "." ++ fpPad
  | none => toString q.num ++ "/" ++ toString q.den

/-- `JSON.stringify(childMemory.personalityTraits)` in JS object-key
insertion order. -/
def traitsJson (t : PersonalityTraits) : String :=
  "\x7b\"aggression\":" ++ ratStr t.aggression ++
  ",\"cooperation\":" ++ ratStr t.cooperation ++
  ",\"riskTolerance\":" ++ ratStr t.riskTolerance ++
  ",\"resourceFocus\":\"" ++ t.resourceFocus ++ "\"" ++
  ",\"communication\":" ++ ratStr t.communication ++ "\x7d"

/-- `MemoryBlender.isRelated`: equal hashes are related, as are hashes
sharing an 8-character prefix (the cheap offline fallback).  The `depth`
parameter is accepted and, as in the source's synchronous path, unused. -/
def isRelated (geneA geneB : String) (_depth : ℕ) : Bool :=
  geneA == geneB || (geneA.take 8 == geneB.take 8)

/-- The contribution weights of `MemoryBlender.blend`:
`weightA = survivalA / totalSurvival` when `totalSurvival > 0`, else `0.5`;
`weightB = 1 - weightA`. -/
def blendWeights (survivalA survivalB : ℚ) : ℚ × ℚ :=
  let totalSurvival := survivalA + survivalB
  let weightA := if 0 < totalSurvival then survivalA / totalSurvival else 1 / 2
  (weightA, 1 - weightA)

/-- The numeric-trait arm of `blendTraits`: weighted average, then with
probability `MUTATION_RATE` a multiplicative perturbation clamped to
`[0,1]`, recorded in the mutation list. -/
def blendNumericTrait (trait : String) (valA valB weightA weightB : ℚ)
    (mutations : List MutationRecord) (rng : Rng) :
    ℚ × List MutationRecord × Rng :=
  let blendedValue := valA * weightA + valB * weightB
  let (r1, rng) := rng.next
  if r1 < MUTATION_RATE then
    let (r2, rng) := rng.next
    let mutationFactor := 1 + (r2 * 2 - 1) * MUTATION_MAGNITUDE
    let mutated := max 0 (min 1 (blendedValue * mutationFactor))
    (mutated,
      mutations ++ [⟨trait, ratStr valA ++ " / " ++ ratStr valB, ratStr mutated,
        |mutationFactor - 1|, true⟩],
      rng)
  else (blendedValue, mutations, rng)

/-- `MemoryBlender.getCategoricalOptions`. -/
def getCategoricalOptions (trait : String) : List String :=
  if trait = "resourceFocus" then ["survival", "growth", "breeding", "exploration"]
  else if trait = "aggression" then ["passive", "defensive", "aggressive", "predatory"]
  else if trait = "cooperation" then
    ["solitary", "selective", "cooperative", "altruistic"]
  else if trait = "riskTolerance" then
    ["conservative", "cautious", "moderate", "bold", "reckless"]
  else if trait = "communication" then
    ["silent", "minimal", "standard", "verbose", "broadcast"]
  else ["default", "variant_a", "variant_b"]

/-- The categorical-trait arm of `blendTraits`: weighted selection, then with
probability `MUTATION_RATE` a uniformly drawn replacement from the trait's
option set. -/
def blendCategoricalTrait (trait valA valB : String) (weightA : ℚ)
    (mutations : List MutationRecord) (rng : Rng) :
    String × List MutationRecord × Rng :=
  let (r1, rng) := rng.next
  let selectedValue := if r1 < weightA then valA else valB
  let (r2, rng) := rng.next
  if r2 < MUTATION_RATE then
    let (r3, rng) := rng.next
    let options := getCategoricalOptions trait
    let mutatedValue := options.getD (⌊r3 * options.length⌋).toNat "default"
    (mutatedValue,
      mutations ++ [⟨trait, valA ++ " / " ++ valB, mutatedValue, 1, true⟩],
      rng)
  else (selectedValue, mutations, rng)

/-- `MemoryBlender.blendTraits` over the five trait fields, in JS object-key
insertion order, threading the mutation list and the random stream. -/
def blendTraits (traitsA traitsB : PersonalityTraits) (weightA weightB : ℚ)
    (rng : Rng) : PersonalityTraits × List MutationRecord × Rng :=
  let s1 := blendNumericTrait "aggression" traitsA.aggression traitsB.aggression
    weightA weightB [] rng
  let s2 := blendNumericTrait "cooperation" traitsA.cooperation traitsB.cooperation
    weightA weightB s1.2.1 s1.2.2
  let s3 := blendNumericTrait "riskTolerance" traitsA.riskTolerance traitsB.riskTolerance
    weightA weightB s2.2.1 s2.2.2
  let s4 := blendCategoricalTrait "resourceFocus" traitsA.resourceFocus
    traitsB.resourceFocus weightA s3.2.1 s3.2.2
  let s5 := blendNumericTrait "communication" traitsA.communication traitsB.communication
    weightA weightB s4.2.1 s4.2.2
  (⟨s1.1, s2.1, s3.1, s4.1, s5.1⟩, s5.2.1, s5.2.2)

/-- The child knowledge-entry id.  JS builds
`child-${Date.now()}-${Math.random().toString(36).slice(2, 11)}`; the base-36
rendering of the draw is abstracted to `ratStr`. -/
def childEntryId (now : ℕ) (r : ℚ) : String :=
  "child-" ++ toString now ++ "-" ++ ratStr r

/-- `MemoryBlender.blendKnowledge`: union of both parents' entries,
de-duplicated by `source:content-prefix(100)` key in order, confidence
decayed by 0.95, sorted by confidence descending, truncated to 1000. -/
def blendKnowledge (knowledgeA knowledgeB : List KnowledgeEntry) (now : ℕ)
    (rng : Rng) : List KnowledgeEntry × Rng :=
  let step := fun (acc : List KnowledgeEntry × List String × Rng)
      (entry : KnowledgeEntry) =>
    let key := entry.source ++ ":" ++ entry.content.take 100
    if acc.2.1.contains key then acc
    else
      let (r, rng) := acc.2.2.next
      (acc.1 ++ [{ entry with
          id := childEntryId now r,
          timestamp := now,
          confidence := entry.confidence * (95 / 100) }],
        acc.2.1 ++ [key], rng)
  let folded := (knowledgeA ++ knowledgeB).foldl step ([], [], rng)
  ((List.insertionSort (fun a b => b.confidence ≤ a.confidence) folded.1).take 1000,
    folded.2.2)

/-- `MemoryBlender.blendSoul`. -/
def blendSoul (soulA soulB : SoulData) (weightA : ℚ) (rng : Rng) (now : ℕ) :
    SoulData × Rng :=
  let (r, rng) := rng.next
  ({ name := "Child of " ++ soulA.name ++ " and " ++ soulB.name,
     origin := "Axobase Evolution",
     purpose := if r < weightA then soulA.purpose else soulB.purpose,
     values := (soulA.values ++ soulB.values).eraseDups.take 5,
     creationTimestamp := now }, rng)

/-- `MemoryBlender.computeChildGeneHash`: SHA-256 of
`parentA.geneHash:parentB.geneHash:birthTime:JSON(traits)`, hex, prefixed
`0x`.  Reads only the child's `birthTime` and `personalityTraits` plus the
two parent hashes. -/
def computeChildGeneHash (childMemory parentA parentB : MemoryData) : String :=
  let combined := parentA.geneHash ++ ":" ++ parentB.geneHash ++ ":" ++
    toString childMemory.birthTime ++ ":" ++ traitsJson childMemory.personalityTraits
  "0x" ++ sha256hex combined

/-- Spec-refinement definition (follows the spec's words, for comparison with
the source's `computeChildGeneHash`): the child's identity as a content hash
of the child's *own* record — its stored parent list, birth time and blended
traits. -/
def childContentHash (m : MemoryData) : String :=
  "0x" ++ sha256hex ((m.parents.getD 0 "") ++ ":" ++ (m.parents.getD 1 "") ++ ":" ++
    toString m.birthTime ++ ":" ++ traitsJson m.personalityTraits)

/-- The body of `MemoryBlender.blend` after the inbreeding guard: weights
from survival days, blended traits / knowledge / soul, the child record with
fresh history, and the recomputed gene hash.  `now` is `Date.now()`. -/
def blendCore (parentA parentB : MemoryData) (rng : Rng) (now : ℕ) : BlendResult :=
  let w := blendWeights parentA.survivalDays parentB.survivalDays
  let tr := blendTraits parentA.personalityTraits parentB.personalityTraits w.1 w.2 rng
  let kn := blendKnowledge parentA.knowledgeBase parentB.knowledgeBase now tr.2.2
  let so := blendSoul parentA.soul parentB.soul w.1 kn.2 now
  let childBase : MemoryData :=
    { geneHash := "",
      generation := max parentA.generation parentB.generation + 1,
      birthTime := now,
      parents := [parentA.geneHash, parentB.geneHash],
      soul := so.1,
      memory := ⟨[], [], []⟩,
      personalityTraits := tr.1,
      knowledgeBase := kn.1,
      survivalDays := 0,
      arweaveManifest := ⟨"1.0", "", []⟩ }
  let gh := computeChildGeneHash childBase parentA parentB
  { childMemory := { childBase with geneHash := gh, arweaveManifest := ⟨"1.0", gh, []⟩ },
    mutations := tr.2.1,
    parentAContribution := w.1,
    parentBContribution := w.2 }

/-- `MemoryBlender.blend`: reject related parents, else produce the blended
child. -/
def blend (parentA parentB : MemoryData) (rng : Rng) (now : ℕ) :
    Except String BlendResult :=
  if isRelated parentA.geneHash parentB.geneHash MAX_INBREEDING_DEPTH then
    .error "Parents are too closely related (inbreeding detected)"
  else .ok (blendCore parentA parentB rng now)

/-- The in-range property of a trait set's numeric fields. -/
def traitsNumericInRange (t : PersonalityTraits) : Prop :=
  (0 ≤ t.aggression ∧ t.aggression ≤ 1) ∧
  (0 ≤ t.cooperation ∧ t.cooperation ≤ 1) ∧
  (0 ≤ t.riskTolerance ∧ t.riskTolerance ≤ 1) ∧
  (0 ≤ t.communication ∧ t.communication ≤ 1)

/-- A concrete parent record used to instantiate the blending theorems. -/
def sampleParentA : MemoryData :=
  { geneHash := "0xaaaaaaaa11111111111111111111111111111111111111111111111111111111",
    generation := 2,
    birthTime := 100,
    parents := [],
    soul := ⟨"Axo-A", "genesis", "survive", ["curiosity"], 100⟩,
    memory := ⟨[], [], []⟩,
    personalityTraits := ⟨1 / 2, 0, 1, "survival", 1 / 4⟩,
    knowledgeBase := [],
    survivalDays := 10,
    arweaveManifest := ⟨"1.0", "", []⟩ }

/-- A second concrete parent, unrelated to `sampleParentA`. -/
def sampleParentB : MemoryData :=
  { geneHash := "0xbbbbbbbb22222222222222222222222222222222222222222222222222222222",
    generation := 1,
    birthTime := 200,
    parents := [],
    soul := ⟨"Axo-B", "genesis", "explore", ["boldness"], 200⟩,
    memory := ⟨[], [], []⟩,
    personalityTraits := ⟨1, 1, 0, "growth", 0⟩,
    knowledgeBase := [],
    survivalDays := 30,
    arweaveManifest := ⟨"1.0", "", []⟩ }

/-- `sampleParentA` with a negative survival duration (used to show the code
does not reject negative durations). -/
def negParentA : MemoryData :=
  { sampleParentA with survivalDays := -1 }

/-- `sampleParentB` with survival duration 3. -/
def negParentB : MemoryData :=
  { sampleParentB with survivalDays := 3 }

end Axobase

namespace Axobase

/-! ## Claim C1 — operating-mode classification -/

/-- C1: for every balance pair, `determineOperationMode` returns Emergency when
the gas balance is below the minimum-gas floor regardless of the stable
balance; otherwise Hibernation below the hibernation floor; otherwise
Emergency below the emergency floor; otherwise LowPower below the low-power
floor; otherwise Normal.  (Purity is immediate: the classifier is a function
of the two balances and the fixed threshold constants alone.) -/
theorem determineOperationMode_spec (b : Balances) :
    (b.eth < MIN_ETH_FOR_GAS → determineOperationMode b = .EMERGENCY) ∧
    (MIN_ETH_FOR_GAS ≤ b.eth → b.usdc < HIBERNATION_THRESHOLD →
      determineOperationMode b = .HIBERNATION) ∧
    (MIN_ETH_FOR_GAS ≤ b.eth → HIBERNATION_THRESHOLD ≤ b.usdc →
      b.usdc < EMERGENCY_THRESHOLD → determineOperationMode b = .EMERGENCY) ∧
    (MIN_ETH_FOR_GAS ≤ b.eth → EMERGENCY_THRESHOLD ≤ b.usdc →
      b.usdc < LOW_POWER_THRESHOLD → determineOperationMode b = .LOW_POWER) ∧
    (MIN_ETH_FOR_GAS ≤ b.eth → LOW_POWER_THRESHOLD ≤ b.usdc →
      determineOperationMode b = .NORMAL) := by
  refine ⟨fun h1 => ?_, fun h1 h2 => ?_, fun h1 h2 h3 => ?_,
    fun h1 h2 h3 => ?_, fun h1 h2 => ?_⟩ <;>
    simp only [determineOperationMode, MIN_ETH_FOR_GAS, HIBERNATION_THRESHOLD,
      EMERGENCY_THRESHOLD, LOW_POWER_THRESHOLD] at * <;>
    split_ifs <;> first | rfl | omega

/-- Witness for C1 at a concrete input: gas below the floor forces Emergency
even with a large stable balance. -/
theorem determineOperationMode_spec_witness :
    (⟨0, 10 ^ 7⟩ : Balances).eth < MIN_ETH_FOR_GAS ∧
      determineOperationMode ⟨0, 10 ^ 7⟩ = .EMERGENCY :=
  ⟨by decide, (determineOperationMode_spec ⟨0, 10 ^ 7⟩).1 (by decide)⟩

/-! ## Claim C2 — the death condition -/

/-- C2: in every survival cycle — from any prior status, hence regardless of
the current operating mode — the agent is marked `DEAD` exactly when the
stable balance is below the hibernation floor AND the gas balance is below the
minimum-gas floor (a previously dead agent stays dead); in particular a stable
balance below the hibernation floor with sufficient gas yields mode
Hibernation with the agent left alive. -/
theorem runSurvivalCycle_death_spec (s : CycleStatus) (b : Balances) :
    ((runSurvivalCycleStep s b).life = .DEAD ↔
      (b.usdc < HIBERNATION_THRESHOLD ∧ b.eth < MIN_ETH_FOR_GAS) ∨
        s.life = .DEAD) ∧
    (b.usdc < HIBERNATION_THRESHOLD → MIN_ETH_FOR_GAS ≤ b.eth →
      (runSurvivalCycleStep s b).mode = .HIBERNATION ∧
      (s.life = .ALIVE → (runSurvivalCycleStep s b).life = .ALIVE)) := by
  constructor
  · by_cases hc : b.usdc < HIBERNATION_THRESHOLD ∧ b.eth < MIN_ETH_FOR_GAS
    · simp [runSurvivalCycleStep, hc]
    · simp [runSurvivalCycleStep, hc]
  · intro h1 h2
    have hc : ¬(b.usdc < HIBERNATION_THRESHOLD ∧ b.eth < MIN_ETH_FOR_GAS) := by
      intro h; omega
    refine ⟨?_, fun ha => ?_⟩
    · simp only [runSurvivalCycleStep, determineOperationMode, MIN_ETH_FOR_GAS,
        HIBERNATION_THRESHOLD, EMERGENCY_THRESHOLD, LOW_POWER_THRESHOLD] at *
      split_ifs <;> first | rfl | omega
    · simp [runSurvivalCycleStep, hc, ha]

/-- Witness for C2 at the spec's scenario B: stable 0.3 USDC with sufficient
gas leaves the agent in Hibernation, not Dead. -/
theorem runSurvivalCycle_death_spec_witness :
    ((⟨10 ^ 15, 300000⟩ : Balances).usdc < HIBERNATION_THRESHOLD ∧
      MIN_ETH_FOR_GAS ≤ (⟨10 ^ 15, 300000⟩ : Balances).eth) ∧
    (runSurvivalCycleStep ⟨.NORMAL, .ALIVE⟩ ⟨10 ^ 15, 300000⟩).mode =
      .HIBERNATION ∧
    (runSurvivalCycleStep ⟨.NORMAL, .ALIVE⟩ ⟨10 ^ 15, 300000⟩).life = .ALIVE :=
  ⟨⟨by decide, by decide⟩,
    ((runSurvivalCycle_death_spec ⟨.NORMAL, .ALIVE⟩ ⟨10 ^ 15, 300000⟩).2
      (by decide) (by decide)).1,
    ((runSurvivalCycle_death_spec ⟨.NORMAL, .ALIVE⟩ ⟨10 ^ 15, 300000⟩).2
      (by decide) (by decide)).2 rfl⟩

/-! ## Claim C7 — consecutive-failure hibernation -/

/-- After `n ≥ 1` consecutive failures from a state whose counter makes the
total exceed 5, the mode is `hibernation`. -/
theorem runFailures_hibernation (t : XThresholds) :
    ∀ (n : ℕ) (s : XSurvivalState), 1 ≤ n → 5 < s.consecutiveFailures + n →
      (runFailures t n s).mode = .hibernation := by
  intro n
  induction n with
  | zero => intro s h; omega
  | succ m ih =>
      intro s _ hgt
      match m, ih with
      | 0, _ =>
          simp only [runFailures, survivalCheck]
          have : s.consecutiveFailures + 1 > 5 := by omega
          simp [this]
      | k + 1, ih =>
          show (runFailures t (k + 1) (survivalCheck t s .failure)).mode = _
          exact ih (survivalCheck t s .failure) (by omega) (by simp [survivalCheck]; omega)

/-- C7 counterexample: five consecutive failed cycles from a freshly reset
state (counter 0) leave the mode unchanged — the code transitions only when
the counter strictly exceeds 5, i.e. on the sixth consecutive failure. -/
theorem survivalCheck_five_failures_counterexample :
    (runFailures ⟨2, 5⟩ 5 ⟨.normal, 0⟩).mode = .normal ∧
      XMode.normal ≠ XMode.hibernation := by decide

/-- C7 (amended): from any state, after six consecutive failed survival cycles
(no intervening success — a success resets the counter to 0) the mode is
Hibernation, independent of balance (the failure branch never reads a
balance). -/
theorem survivalCheck_six_failures_hibernation (t : XThresholds)
    (s : XSurvivalState) (u : ℚ) :
    (runFailures t 6 s).mode = .hibernation ∧
      (survivalCheck t s (.success u)).consecutiveFailures = 0 :=
  ⟨runFailures_hibernation t 6 s (by omega) (by omega), rfl⟩

/-! ## Claim C4 — challenge rejection conditions -/

/-- The deviation gate fires exactly when the amount exceeds four times a
positive historical average: `(amount/avg - 1) * 100 > 300 ↔ amount > 4*avg`. -/
theorem priceDeviationExceeded_iff (amount avg : ℚ) (havg : 0 < avg) :
    priceDeviationExceeded amount avg = true ↔ 4 * avg < amount := by
  simp only [priceDeviationExceeded, Bool.and_eq_true, decide_eq_true_eq]
  constructor
  · rintro ⟨-, h⟩
    have h4 : (4 : ℚ) < amount / avg := by linarith
    calc 4 * avg < (amount / avg) * avg := by
          exact mul_lt_mul_of_pos_right h4 havg
      _ = amount := div_mul_cancel₀ amount (ne_of_gt havg)
  · intro h
    refine ⟨havg, ?_⟩
    have h4 : (4 : ℚ) < amount / avg := (lt_div_iff₀ havg).mpr (by linarith)
    linarith

/-- C4 counterexample: a requested amount of 3.5 with a historical average of
1 exceeds the claimed 3× safety multiple, yet the payment client does not
reject it — with sufficient balance it signs one payment and completes the
paid call. -/
theorem payment_price_deviation_counterexample :
    (3 : ℚ) * 1 < 7 / 2 ∧
      handlePaymentRequired 1 100 (7 / 2) [.withHeader (.okTx "0xabc")] 0 =
        ⟨1, [0], .ok true⟩ := by
  have h1 : priceDeviationExceeded (7 / 2) 1 = false := by
    norm_num [priceDeviationExceeded]
  have h2 : ¬(100 : ℚ) < 7 / 2 := by norm_num
  exact ⟨by norm_num, by simp [handlePaymentRequired, h1, h2]⟩

/-- C4 (amended): the payment client rejects a challenge without paying when
the descriptor network id does not match the configured network
(`parsePaymentRequired`), when the amount exceeds the configured `maxPrice`
ceiling (`executePayment`, network client), or when the amount exceeds four
times (a deviation of more than 300% above) a positive historical average
price (`handlePaymentRequired` — no payment is signed: `signed` stays at `n`
and no nonce is drawn). -/
theorem payment_challenge_rejections :
    (∀ (chainId : ℕ) (info : X402PaymentInfo),
      info.networkId ≠ toString chainId →
        ∃ e, parsePaymentRequired chainId info = .error e) ∧
    (∀ (maxPrice : ℚ) (info : X402PaymentInfo) (bal : ℤ) (resp : NetPaidResponse),
      maxPrice < info.maxAmountRequired →
        ∃ e, executePayment maxPrice info bal resp = .error e) ∧
    (∀ (avg bal amount : ℚ) (rs : List PaidResponse) (n : ℕ),
      0 < avg → 4 * avg < amount →
        handlePaymentRequired avg bal amount rs n =
          ⟨n, [], .error "Price exceeds 300 percent of historical average"⟩) := by
  refine ⟨?_, ?_, ?_⟩
  · intro chainId info hnet
    by_cases hs : info.scheme = "exact"
    · exact ⟨"Network mismatch: expected " ++ toString chainId ++ ", got " ++
        info.networkId, by simp [parsePaymentRequired, hs, hnet]⟩
    · exact ⟨"Unsupported payment scheme: " ++ info.scheme,
        by simp [parsePaymentRequired, hs]⟩
  · intro maxPrice info bal resp hceil
    exact ⟨"Price exceeds maximum", by simp [executePayment, hceil]⟩
  · intro avg bal amount rs n havg hx
    have hgate : priceDeviationExceeded amount avg = true :=
      (priceDeviationExceeded_iff amount avg havg).mpr hx
    cases rs with
    | nil => simp [handlePaymentRequired, hgate]
    | cons r rest =>
        cases r with
        | noHeader => simp [handlePaymentRequired, hgate]
        | withHeader h => cases h <;> simp [handlePaymentRequired, hgate]

/-- Witness for C4 at concrete inputs: a network mismatch is rejected, a
price over the ceiling is rejected, and an amount over 4× the average is
rejected without signing. -/
theorem payment_challenge_rejections_witness :
    ("1" : String) ≠ toString (8453 : ℕ) ∧
    (∃ e, parsePaymentRequired 8453 ⟨"exact", "1", 1, "0xb", 60⟩ = .error e) ∧
    (5 : ℚ) < 6 ∧
    (∃ e, executePayment 5 ⟨"exact", "8453", 6, "0xb", 60⟩ 100000000 (.plain 200) =
      .error e) ∧
    (0 : ℚ) < 1 ∧ (4 : ℚ) * 1 < 5 ∧
    handlePaymentRequired 1 100 5 [.withHeader (.okTx "0xabc")] 0 =
      ⟨0, [], .error "Price exceeds 300 percent of historical average"⟩ :=
  ⟨by decide,
    payment_challenge_rejections.1 8453 ⟨"exact", "1", 1, "0xb", 60⟩ (by decide),
    by norm_num,
    payment_challenge_rejections.2.1 5 ⟨"exact", "8453", 6, "0xb", 60⟩ 100000000
      (.plain 200) (by norm_num),
    by norm_num, by norm_num,
    payment_challenge_rejections.2.2 1 100 5 [.withHeader (.okTx "0xabc")] 0
      (by norm_num) (by norm_num)⟩

/-! ## Claim C5 — invalid / funds-exceeded handling -/

/-- C5 counterexample: with the server answering `invalid` twice and then
succeeding, the client signs three payments (the initial one plus two
re-sign-and-retries), not the claimed exactly one re-sign-and-retry (which
would give at most two signatures). -/
theorem payment_invalid_single_retry_counterexample :
    handlePaymentRequired 1 100 1
        [.withHeader .errInvalid, .withHeader .errInvalid,
          .withHeader (.okTx "0xabc")] 0 =
      ⟨3, [0, 1, 2], .ok true⟩ ∧ (3 : ℕ) ≠ 2 := by
  have h1 : priceDeviationExceeded 1 1 = false := by norm_num [priceDeviationExceeded]
  have h2 : ¬(100 : ℚ) < 1 := by norm_num
  exact ⟨by simp [handlePaymentRequired, h1, h2], by decide⟩

/-- C5 (amended): when the paid response carries an explicit `invalid` payment
error, the client re-signs with the next fresh nonce and re-enters the whole
flow — once per `invalid` response, with no retry bound — and when it carries
an explicit `funds exceeded` error the failure is fatal and not retried (the
remaining trace is never consulted and no further payment is signed). -/
theorem payment_invalid_and_funds_exceeded (avg bal amount : ℚ)
    (rs : List PaidResponse) (n : ℕ)
    (hgate : priceDeviationExceeded amount avg = false)
    (hbal : ¬bal < amount) :
    handlePaymentRequired avg bal amount (.withHeader .errFunds :: rs) n =
      ⟨n + 1, [n], .error "Payment failed: funds exceeded"⟩ ∧
    handlePaymentRequired avg bal amount (.withHeader .errInvalid :: rs) n =
      ⟨(handlePaymentRequired avg bal amount rs (n + 1)).signed,
        n :: (handlePaymentRequired avg bal amount rs (n + 1)).nonceIdxs,
        (handlePaymentRequired avg bal amount rs (n + 1)).outcome⟩ := by
  constructor <;> simp [handlePaymentRequired, hgate, hbal]

/-- Witness for C5 at a concrete input: a `funds exceeded` response is fatal
and consumes exactly the one already-signed payment. -/
theorem payment_invalid_and_funds_exceeded_witness :
    priceDeviationExceeded 1 1 = false ∧ ¬(100 : ℚ) < 1 ∧
    handlePaymentRequired 1 100 1 [.withHeader .errFunds] 0 =
      ⟨1, [0], .error "Payment failed: funds exceeded"⟩ :=
  ⟨by norm_num [priceDeviationExceeded], by norm_num,
    (payment_invalid_and_funds_exceeded 1 100 1 [] 0
      (by norm_num [priceDeviationExceeded]) (by norm_num)).1⟩

/-! ## Claim C6 — settlement confirmation -/

/-- C6 counterexample: with submission succeeding and the facilitator
reporting `failed` on the first status poll and `confirmed` on the second,
`pollForSettlement` returns terminal success — the `failed` status is not
terminal (its throw is swallowed by the catch that ignores polling errors).
And with every poll `pending`, the confirmation times out and the evidence is
returned unconfirmed with the pending set left empty — dropped, not cached. -/
theorem settlement_failed_terminal_counterexample :
    pollForSettlement (fun _ => true)
        (fun i => if i = 0 then .failed else .confirmed) 60 [] "0xdead" =
      (true, []) ∧
    pollForSettlement (fun _ => true) (fun _ => .pending) 60 [] "0xbeef" =
      (false, []) :=
  ⟨rfl, rfl⟩

/-- `pollLoop` confirms exactly when some status within the poll budget is
`confirmed`. -/
theorem pollLoop_eq_true_iff (status : ℕ → SettleStatus) :
    ∀ (fuel i : ℕ),
      pollLoop status fuel i = true ↔ ∃ k, k < fuel ∧ status (i + k) = .confirmed := by
  intro fuel
  induction fuel with
  | zero => intro i; simp [pollLoop]
  | succ m ih =>
      intro i
      rw [pollLoop]
      rcases hs : status i with _ | _ | _
      case confirmed =>
        constructor
        · intro _; exact ⟨0, Nat.succ_pos m, by simpa using hs⟩
        · intro _; rfl
      case failed =>
        show pollLoop status m (i + 1) = true ↔ _
        rw [ih (i + 1)]
        constructor
        · rintro ⟨k, hk, hc⟩
          exact ⟨k + 1, by omega, by rw [show i + (k + 1) = i + 1 + k by omega]; exact hc⟩
        · rintro ⟨k, hk, hc⟩
          match k, hc with
          | 0, hc =>
              rw [Nat.add_zero] at hc
              exact absurd (hs.symm.trans hc) (by simp)
          | k + 1, hc =>
              exact ⟨k, by omega, by rw [show i + 1 + k = i + (k + 1) by omega]; exact hc⟩
      case pending =>
        show pollLoop status m (i + 1) = true ↔ _
        rw [ih (i + 1)]
        constructor
        · rintro ⟨k, hk, hc⟩
          exact ⟨k + 1, by omega, by rw [show i + (k + 1) = i + 1 + k by omega]; exact hc⟩
        · rintro ⟨k, hk, hc⟩
          match k, hc with
          | 0, hc =>
              rw [Nat.add_zero] at hc
              exact absurd (hs.symm.trans hc) (by simp)
          | k + 1, hc =>
              exact ⟨k, by omega, by rw [show i + 1 + k = i + (k + 1) by omega]; exact hc⟩

/-- C6 (amended): `confirmed` is the only terminal success of the
confirmation poll; a `failed` status is swallowed by the poll-loop error
handler and polling simply continues; evidence whose facilitator submission
fails after the 5-attempt budget is cached in the pending set (and
`processPendingSettlements` retries every cached entry on the next scheduler
cycle, dropping exactly those that succeed); but evidence that was submitted
and whose confirmation polling times out is returned unconfirmed with the
pending set untouched — it is dropped, not cached. -/
theorem settlement_polling_spec :
    (∀ (ok : ℕ → Bool) (status : ℕ → SettleStatus) (budget : ℕ)
        (pending : List String) (tx : String),
      submitted ok = false →
        pollForSettlement ok status budget pending tx = (false, tx :: pending)) ∧
    (∀ (status : ℕ → SettleStatus) (fuel i : ℕ),
      pollLoop status fuel i = true ↔
        ∃ k, k < fuel ∧ status (i + k) = .confirmed) ∧
    (∀ (status : ℕ → SettleStatus) (fuel i : ℕ), status i = .failed →
      pollLoop status (fuel + 1) i = pollLoop status fuel (i + 1)) ∧
    (∀ (ok : ℕ → Bool) (status : ℕ → SettleStatus) (budget : ℕ)
        (pending : List String) (tx : String),
      submitted ok = true →
        pollForSettlement ok status budget pending tx =
          (pollLoop status (min 60 budget) 0, pending)) ∧
    (∀ (result : String → Bool) (pending : List String) (tx : String),
      tx ∈ processPendingSettlements result pending ↔
        tx ∈ pending ∧ result tx = false) := by
  refine ⟨?_, pollLoop_eq_true_iff, ?_, ?_, ?_⟩
  · intro ok status budget pending tx h
    simp [pollForSettlement, h]
  · intro status fuel i hs
    rw [pollLoop, hs]
  · intro ok status budget pending tx h
    simp [pollForSettlement, h]
  · intro result pending tx
    simp [processPendingSettlements, List.mem_filter]

/-! ## Claim C8 — determinism and order-independence of the identity hash -/

/-- A successful lookup is a member of the association list. -/
theorem lookup_mem {m : List (String × String)} {k v : String}
    (h : m.lookup k = some v) : (k, v) ∈ m := by
  induction m with
  | nil => simp [List.lookup] at h
  | cons p rest ih =>
      rcases p with ⟨a, b⟩
      by_cases hk : k = a
      · subst hk
        simp [List.lookup] at h
        simp [h]
      · have hbeq : (k == a) = false := beq_eq_false_iff_ne.mpr hk
        simp only [List.lookup, hbeq] at h
        exact List.mem_cons_of_mem _ (ih h)

/-- With distinct keys, membership determines the lookup. -/
theorem lookup_of_mem {m : List (String × String)}
    (nd : (m.map Prod.fst).Nodup) {k v : String} (h : (k, v) ∈ m) :
    m.lookup k = some v := by
  induction m with
  | nil => cases h
  | cons p rest ih =>
      rcases p with ⟨a, b⟩
      rcases List.mem_cons.mp h with h1 | h2
      · cases h1
        simp [List.lookup]
      · have hk : k ≠ a := by
          intro he
          subst he
          have hmem : k ∈ rest.map Prod.fst := List.mem_map.mpr ⟨(k, v), h2, rfl⟩
          exact (List.nodup_cons.mp nd).1 hmem
        have hbeq : (k == a) = false := beq_eq_false_iff_ne.mpr hk
        simp only [List.lookup, hbeq]
        exact ih (List.nodup_cons.mp nd).2 h2

/-- Lookups agree on permuted association lists with distinct keys. -/
theorem lookup_eq_of_perm {m₁ m₂ : List (String × String)}
    (nd₁ : (m₁.map Prod.fst).Nodup) (nd₂ : (m₂.map Prod.fst).Nodup)
    (hp : m₁.Perm m₂) (k : String) : m₁.lookup k = m₂.lookup k := by
  cases h₁ : m₁.lookup k with
  | some v => exact (lookup_of_mem nd₂ (hp.mem_iff.mp (lookup_mem h₁))).symm
  | none =>
      cases h₂ : m₂.lookup k with
      | none => rfl
      | some v =>
          have hl := lookup_of_mem nd₁ (hp.mem_iff.mpr (lookup_mem h₂))
          rw [hl] at h₁
          cases h₁

/-- C8: `generateGeneHash` is a deterministic, order-independent function of
the record set — two record maps with distinct keys holding exactly the same
key/value pairs, in any presentation order, hash identically, and calling it
twice on the same map gives the same hash; and changing one byte of one
record changes the hash, witnessed by `H({a:"1"}) ≠ H({a:"2"})`. -/
theorem generateGeneHash_spec :
    (∀ (m₁ m₂ : List (String × String)),
      (m₁.map Prod.fst).Nodup → (m₂.map Prod.fst).Nodup → m₁.Perm m₂ →
        generateGeneHash m₁ = generateGeneHash m₂) ∧
    (∀ m : List (String × String), generateGeneHash m = generateGeneHash m) ∧
    generateGeneHash [("a", "1")] ≠ generateGeneHash [("a", "2")] := by
  refine ⟨?_, fun m => rfl, ?_⟩
  · intro m₁ m₂ nd₁ nd₂ hp
    have hkeys : (m₁.map Prod.fst).Perm (m₂.map Prod.fst) := hp.map Prod.fst
    have hsorted : List.insertionSort (· ≤ ·) (m₁.map Prod.fst) =
        List.insertionSort (· ≤ ·) (m₂.map Prod.fst) :=
      List.eq_of_perm_of_sorted
        ((List.perm_insertionSort _ _).trans
          (hkeys.trans (List.perm_insertionSort _ _).symm))
        (List.sorted_insertionSort _ _) (List.sorted_insertionSort _ _)
    have hfun : (fun key => key ++ ":" ++ ((m₁.lookup key).getD "")) =
        (fun key => key ++ ":" ++ ((m₂.lookup key).getD "")) := by
      funext k
      rw [lookup_eq_of_perm nd₁ nd₂ hp k]
    simp only [generateGeneHash]
    rw [hsorted, hfun]
  · decide

/-- Witness for C8: the two presentation orders of the same two-record set
hash identically. -/
theorem generateGeneHash_spec_witness :
    ([("a", "1"), ("b", "2")].map (Prod.fst (α := String) (β := String))).Nodup ∧
    ([("b", "2"), ("a", "1")].map (Prod.fst (α := String) (β := String))).Nodup ∧
    [("a", "1"), ("b", "2")].Perm [("b", "2"), ("a", "1")] ∧
    generateGeneHash [("a", "1"), ("b", "2")] =
      generateGeneHash [("b", "2"), ("a", "1")] :=
  ⟨by decide, by decide, List.Perm.swap _ _ _,
    generateGeneHash_spec.1 _ _ (by decide) (by decide) (List.Perm.swap _ _ _)⟩

/-! ## Claim C3 — child metadata and recomputed identity -/

/-- C3: for every valid (unrelated) parent pair, `blend` succeeds and its
child has generation `max(parent generations) + 1`, parents
`[identityA, identityB]`, fresh (empty) history, and an identity recomputed
as a content hash of the child's own blended record (its stored parent list,
birth time and blended traits — `childContentHash`), not inherited from the
parents. -/
theorem blend_child_metadata :
    (∀ (pA pB : MemoryData) (rng : Rng) (now : ℕ),
      isRelated pA.geneHash pB.geneHash MAX_INBREEDING_DEPTH = false →
        blend pA pB rng now = .ok (blendCore pA pB rng now)) ∧
    (∀ (pA pB : MemoryData) (rng : Rng) (now : ℕ),
      (blendCore pA pB rng now).childMemory.generation =
        max pA.generation pB.generation + 1 ∧
      (blendCore pA pB rng now).childMemory.parents = [pA.geneHash, pB.geneHash] ∧
      (blendCore pA pB rng now).childMemory.memory.thoughts = [] ∧
      (blendCore pA pB rng now).childMemory.memory.transactions = [] ∧
      (blendCore pA pB rng now).childMemory.memory.dailySummaries = [] ∧
      (blendCore pA pB rng now).childMemory.survivalDays = 0 ∧
      (blendCore pA pB rng now).childMemory.geneHash =
        childContentHash (blendCore pA pB rng now).childMemory) := by
  constructor
  · intro pA pB rng now h
    simp [blend, h]
  · intro pA pB rng now
    refine ⟨rfl, rfl, rfl, rfl, rfl, rfl, rfl⟩

/-- Witness for C3 at concrete unrelated parents: the inbreeding guard
passes and `blend` returns the blended child. -/
theorem blend_child_metadata_witness :
    isRelated sampleParentA.geneHash sampleParentB.geneHash
      MAX_INBREEDING_DEPTH = false ∧
    blend sampleParentA sampleParentB ⟨fun _ => 1 / 2, 0⟩ 42 =
      .ok (blendCore sampleParentA sampleParentB ⟨fun _ => 1 / 2, 0⟩ 42) :=
  ⟨by decide,
    blend_child_metadata.1 sampleParentA sampleParentB ⟨fun _ => 1 / 2, 0⟩ 42
      (by decide)⟩

/-! ## Claim C9 — contribution weights -/

/-- C9 counterexample: a negative survival duration is not rejected — with
`survivalDays` −1 and 3 the blend succeeds and computes contribution weights
(−0.5, 1.5) by the same formula, instead of the claimed undefined/error
outcome. -/
theorem blend_negative_survival_counterexample :
    negParentA.survivalDays = -1 ∧ (-1 : ℚ) < 0 ∧
    (blend negParentA negParentB ⟨fun _ => 1 / 2, 0⟩ 1000).toOption.map
        (fun r => (r.parentAContribution, r.parentBContribution)) =
      some (-(1 / 2), 3 / 2) := by
  have hrel : isRelated negParentA.geneHash negParentB.geneHash
      MAX_INBREEDING_DEPTH = false := by decide
  refine ⟨rfl, by norm_num, ?_⟩
  have hb : blend negParentA negParentB ⟨fun _ => 1 / 2, 0⟩ 1000 =
      .ok (blendCore negParentA negParentB ⟨fun _ => 1 / 2, 0⟩ 1000) := by
    simp [blend, hrel]
  rw [hb]
  show some ((blendWeights negParentA.survivalDays negParentB.survivalDays).1,
    (blendWeights negParentA.survivalDays negParentB.survivalDays).2) = _
  have hA : negParentA.survivalDays = -1 := rfl
  have hB : negParentB.survivalDays = 3 := rfl
  rw [hA, hB]
  norm_num [blendWeights]

/-- C9 (amended): for every parent pair the blend contribution weights
satisfy `weightA = survivalA / (survivalA + survivalB)` whenever the total is
positive, `weightA + weightB = 1` exactly, and 0.5/0.5 when both durations
are 0; negative survival durations are not rejected — the same formula is
applied and can yield weights outside `[0,1]`. -/
theorem blend_contribution_weights :
    (∀ (pA pB : MemoryData) (rng : Rng) (now : ℕ),
      (blend pA pB rng now).toOption.map
          (fun r => (r.parentAContribution, r.parentBContribution)) =
        if isRelated pA.geneHash pB.geneHash MAX_INBREEDING_DEPTH then none
        else some (blendWeights pA.survivalDays pB.survivalDays)) ∧
    (∀ a b : ℚ, (blendWeights a b).1 + (blendWeights a b).2 = 1) ∧
    (∀ a b : ℚ, 0 < a + b → (blendWeights a b).1 = a / (a + b)) ∧
    blendWeights 0 0 = (1 / 2, 1 / 2) := by
  refine ⟨?_, ?_, ?_, ?_⟩
  · intro pA pB rng now
    cases hrel : isRelated pA.geneHash pB.geneHash MAX_INBREEDING_DEPTH
    · have hb : blend pA pB rng now = .ok (blendCore pA pB rng now) := by
        simp [blend, hrel]
      rw [hb]
      rfl
    · simp [blend, hrel, Except.toOption]
  · intro a b
    simp only [blendWeights]
    ring
  · intro a b h
    simp only [blendWeights, if_pos h]
  · norm_num [blendWeights]

/-- Witness for C9 at concrete durations 10 and 30: the weights are exactly
(0.25, 0.75) and sum to 1. -/
theorem blend_contribution_weights_witness :
    (0 : ℚ) < 10 + 30 ∧ (blendWeights 10 30).1 = 10 / (10 + 30) ∧
      (blendWeights 10 30).1 + (blendWeights 10 30).2 = 1 :=
  ⟨by norm_num, blend_contribution_weights.2.2.1 10 30 (by norm_num),
    blend_contribution_weights.2.1 10 30⟩

/-! ## Claim C10 — blended numeric traits stay in [0,1] -/

/-- The numeric-trait arm stays in `[0,1]`: the unmutated weighted average is
a convex combination, and the mutated value is clamped. -/
theorem blendNumericTrait_bounds (trait : String) (valA valB wA wB : ℚ)
    (ms : List MutationRecord) (rng : Rng)
    (h0A : 0 ≤ valA) (h1A : valA ≤ 1) (h0B : 0 ≤ valB) (h1B : valB ≤ 1)
    (h0w : 0 ≤ wA) (h1w : wA ≤ 1) (hw : wB = 1 - wA) :
    0 ≤ (blendNumericTrait trait valA valB wA wB ms rng).1 ∧
      (blendNumericTrait trait valA valB wA wB ms rng).1 ≤ 1 := by
  subst hw
  simp only [blendNumericTrait, Rng.next]
  split
  · constructor
    · exact le_max_left 0 _
    · exact max_le zero_le_one (min_le_left 1 _)
  · have hb : 0 ≤ 1 - wA := by linarith
    have c1 : 0 ≤ valA * wA := mul_nonneg h0A h0w
    have c2 : 0 ≤ valB * (1 - wA) := mul_nonneg h0B hb
    have h1 : valA * wA ≤ 1 * wA := mul_le_mul_of_nonneg_right h1A h0w
    have h2 : valB * (1 - wA) ≤ 1 * (1 - wA) := mul_le_mul_of_nonneg_right h1B hb
    constructor
    · show 0 ≤ valA * wA + valB * (1 - wA)
      linarith
    · show valA * wA + valB * (1 - wA) ≤ 1
      linarith

/-- The weights derived from non-negative survival durations: `weightA` is in
`[0,1]` and `weightB = 1 - weightA`. -/
theorem blendWeights_mem (a b : ℚ) (ha : 0 ≤ a) (hb : 0 ≤ b) :
    0 ≤ (blendWeights a b).1 ∧ (blendWeights a b).1 ≤ 1 ∧
      (blendWeights a b).2 = 1 - (blendWeights a b).1 := by
  refine ⟨?_, ?_, rfl⟩ <;> simp only [blendWeights]
  · split
    · positivity
    · norm_num
  · split
    case isTrue h => exact (div_le_one h).mpr (by linarith)
    case isFalse h => norm_num

/-- C10: for parent trait sets whose numeric traits lie in `[0,1]` and any
weight pair derived from non-negative survival durations, every numeric trait
of the `blendTraits` child lies in `[0,1]`, for every outcome of the random
source. -/
theorem blendTraits_bounds (tA tB : PersonalityTraits) (a b : ℚ) (rng : Rng)
    (ha : 0 ≤ a) (hb : 0 ≤ b)
    (htA : traitsNumericInRange tA) (htB : traitsNumericInRange tB) :
    traitsNumericInRange
      (blendTraits tA tB (blendWeights a b).1 (blendWeights a b).2 rng).1 := by
  obtain ⟨hw0, hw1, hwB⟩ := blendWeights_mem a b ha hb
  obtain ⟨⟨hA1, hA2⟩, ⟨hA3, hA4⟩, ⟨hA5, hA6⟩, hA7, hA8⟩ := htA
  obtain ⟨⟨hB1, hB2⟩, ⟨hB3, hB4⟩, ⟨hB5, hB6⟩, hB7, hB8⟩ := htB
  exact ⟨blendNumericTrait_bounds _ _ _ _ _ _ _ hA1 hA2 hB1 hB2 hw0 hw1 hwB,
    blendNumericTrait_bounds _ _ _ _ _ _ _ hA3 hA4 hB3 hB4 hw0 hw1 hwB,
    blendNumericTrait_bounds _ _ _ _ _ _ _ hA5 hA6 hB5 hB6 hw0 hw1 hwB,
    blendNumericTrait_bounds _ _ _ _ _ _ _ hA7 hA8 hB7 hB8 hw0 hw1 hwB⟩

/-- Witness for C10 at concrete parents, durations 10/30 and a constant
random stream. -/
theorem blendTraits_bounds_witness :
    (0 : ℚ) ≤ 10 ∧ (0 : ℚ) ≤ 30 ∧
    traitsNumericInRange sampleParentA.personalityTraits ∧
    traitsNumericInRange sampleParentB.personalityTraits ∧
    traitsNumericInRange
      (blendTraits sampleParentA.personalityTraits sampleParentB.personalityTraits
        (blendWeights 10 30).1 (blendWeights 10 30).2 ⟨fun _ => 1 / 2, 0⟩).1 := by
  have htA : traitsNumericInRange sampleParentA.personalityTraits := by
    refine ⟨⟨?_, ?_⟩, ⟨?_, ?_⟩, ⟨?_, ?_⟩, ?_, ?_⟩ <;> norm_num [sampleParentA]
  have htB : traitsNumericInRange sampleParentB.personalityTraits := by
    refine ⟨⟨?_, ?_⟩, ⟨?_, ?_⟩, ⟨?_, ?_⟩, ?_, ?_⟩ <;> norm_num [sampleParentB]
  exact ⟨by norm_num, by norm_num, htA, htB,
    blendTraits_bounds sampleParentA.personalityTraits
      sampleParentB.personalityTraits 10 30 ⟨fun _ => 1 / 2, 0⟩
      (by norm_num) (by norm_num) htA htB⟩

/-- Witness for C6 at concrete inputs: evidence whose submission fails all 5
attempts is cached in the pending set; a confirmed second poll is terminal
success. -/
theorem settlement_polling_spec_witness :
    submitted (fun _ => false) = false ∧
    pollForSettlement (fun _ => false) (fun _ => .pending) 60 [] "0xcafe" =
      (false, ["0xcafe"]) ∧
    (pollLoop (fun i => if i = 0 then .failed else .confirmed) 2 0 = true ↔
      ∃ k, k < 2 ∧
        (if 0 + k = 0 then SettleStatus.failed else .confirmed) = .confirmed) :=
  ⟨by decide,
    settlement_polling_spec.1 (fun _ => false) (fun _ => .pending) 60 [] "0xcafe"
      (by decide),
    by
      have h := settlement_polling_spec.2.1
        (fun i => if i = 0 then SettleStatus.failed else .confirmed) 2 0
      simpa using h⟩

end Axobase
